import Mathlib

/-!
Verification of the message relay and appointment store of `secretaria-juliana`.

Shallow embedding of the TypeScript sources of the repository
`julianamariano84/secretaria-juliana`:

* `src/services/zapiService.ts` — the Z-API gateway client (`ZapiService`)
  and the in-memory `AppointmentService`;
* `src/services/messageService.ts` — `MessageService.sendMessage` /
  `receiveMessage`;
* `src/controllers/appointmentsController.ts` — `MessagesController.receiveMessage`;
* the unnamed module defining `enviarMensagem` (env-configured Z-API sender).

Conventions of the embedding:

* A JavaScript method that `throw`s is modelled as returning
  `Except.error`; a normal return is `Except.ok`.
* The HTTP network is an oracle `net : HttpRequest → AxiosResult` supplied
  as a parameter; each function additionally returns the list of requests it
  issued, so "issues exactly one network call" is a statement about that list.
* `process.env` is modelled as an association list of strings; the JS
  `a || b` fallback on strings (empty string is falsy) is `orDefault`.
* The mutable `appointments: Appointment[]` array is modelled by explicit
  state passing of a `List Appointment`; each store operation returns the
  new state together with its JS return value.
-/

/-- Record `Appointment`, from `src/types/index.ts` / `models/appointment`:
`{id, clientName, date, time, notes?}`. The `date` field is kept as a string
(its ISO form); nothing in the store inspects it. -/
structure Appointment where
  id : String
  clientName : String
  date : String
  time : String
  notes : Option String
deriving Repr, DecidableEq

/-- A partial patch as passed to `updateAppointment`: a JS object in which
each field may be present or absent.  A present field (even `notes`)
overwrites via object spread; an absent one leaves the old value. -/
structure AppointmentPatch where
  id : Option String
  clientName : Option String
  date : Option String
  time : Option String
  notes : Option String
deriving Repr, DecidableEq

/-- The empty patch (a JS object with no fields). -/
def AppointmentPatch.empty : AppointmentPatch :=
  ⟨none, none, none, none, none⟩

/-- JS object spread `{ ...old, ...patch }` from `zapiService.ts` line 63:
every field present in the patch overwrites, every absent field is kept. -/
def mergePatch (a : Appointment) (p : AppointmentPatch) : Appointment :=
  { id := p.id.getD a.id
    clientName := p.clientName.getD a.clientName
    date := p.date.getD a.date
    time := p.time.getD a.time
    notes := match p.notes with
      | some v => some v
      | none => a.notes }

namespace AppointmentService

/-- Method `scheduleAppointment` (zapiService.ts lines 51-54): pushes the given
appointment onto the array and returns it.  The store neither assigns an
`id` (the record of the caller is stored as-is) nor checks for duplicates. -/
def scheduleAppointment (s : List Appointment) (a : Appointment) :
    List Appointment × Appointment :=
  (s ++ [a], a)

/-- Method `getAppointments` (zapiService.ts lines 56-58): returns the array. -/
def getAppointments (s : List Appointment) : List Appointment :=
  s

/-- Method `updateAppointment` (zapiService.ts lines 60-67): `findIndex` of the
first record whose `id` matches, replace it by the spread-merge, return the
merged record; `null` (here `none`) when no record matches, leaving the
array untouched. The recursion replaces exactly the first match, as
`findIndex` + index assignment does. -/
def updateAppointment : List Appointment → String → AppointmentPatch →
    List Appointment × Option Appointment
  | [], _, _ => ([], none)
  | a :: rest, id, p =>
    if a.id = id then
      (mergePatch a p :: rest, some (mergePatch a p))
    else
      let r := updateAppointment rest id p
      (a :: r.1, r.2)

/-- Method `cancelAppointment` (zapiService.ts lines 69-76): `findIndex` of the
first record whose `id` matches, `splice` it out and return `true`;
`false` when no record matches, leaving the array untouched. -/
def cancelAppointment : List Appointment → String →
    List Appointment × Bool
  | [], _ => ([], false)
  | a :: rest, id =>
    if a.id = id then
      (rest, true)
    else
      let r := cancelAppointment rest id
      (a :: r.1, r.2)

end AppointmentService

/-! The HTTP world.

The network is a pure oracle: a function from the request the client builds
to the outcome axios reports.  `AxiosResult.err` covers both a non-2xx HTTP
response (then `responseData` carries the parsed response body, available in
JS as `err.response.data`) and a transport failure (then `responseData` is
`none`); `message` is the axios `Error.message` in either case. -/

/-- A JSON value, restricted to the shapes this code ever produces or
inspects: a string, or a flat object with string-valued fields. -/
inductive JsonValue where
  | str (s : String)
  | obj (fields : List (String × String))
deriving Repr, DecidableEq

/-- Function `JSON.stringify` on the values of `JsonValue`. -/
def JsonValue.stringify : JsonValue → String
  | .str s => "\"" ++ s ++ "\""
  | .obj fields =>
      "\x7b" ++
        String.intercalate ","
          (fields.map (fun p => "\"" ++ p.1 ++ "\":\"" ++ p.2 ++ "\"")) ++
      "\x7d"

/-- JS truthiness of a `JsonValue`: the empty string is falsy, every other
string and every object is truthy. -/
def JsonValue.truthy : JsonValue → Bool
  | .str s => s ≠ ""
  | .obj _ => true

/-- One outbound HTTP request as the client assembles it: method, fully
resolved URL, headers, and the JSON body as a flat field list. -/
structure HttpRequest where
  method : String
  url : String
  headers : List (String × String)
  body : List (String × String)
deriving Repr, DecidableEq

/-- What axios reports when a request fails: `responseData` is
`err.response.data` (present for a non-2xx HTTP response, absent for a
transport failure), `message` is `err.message`. -/
structure AxiosError where
  responseData : Option JsonValue
  message : String
deriving Repr, DecidableEq

/-- Outcome of one axios call. -/
inductive AxiosResult where
  | ok (data : JsonValue)
  | err (e : AxiosError)
deriving Repr, DecidableEq

namespace ZapiService

/-- Field `this.apiUrl`, hard-coded in the `ZapiService` constructor
(zapiService.ts line 8). -/
def apiUrl : String := "https://api.z-api.io/"

/-- Field `this.token`, hard-coded in the `ZapiService` constructor
(zapiService.ts line 9). -/
def token : String := "9D1448816F95F132200BAE50"

/-- Method `ZapiService.sendRequest` (zapiService.ts lines 12-27): builds the
request from the base URL, endpoint, bearer-token headers and body, issues
exactly one axios call, returns `response.data` on success and otherwise
throws `Error("Erro ao comunicar com a Z-API: " + error.message)` —
modelled as `Except.error`.  The second component is the list of requests
issued. -/
def sendRequest (net : HttpRequest → AxiosResult)
    (apiUrl token endpoint method : String)
    (data : List (String × String)) :
    Except String JsonValue × List HttpRequest :=
  let req : HttpRequest :=
    { method := method
      url := apiUrl ++ endpoint
      headers := [("Authorization", "Bearer " ++ token),
                  ("Content-Type", "application/json")]
      body := data }
  match net req with
  | .ok d => (.ok d, [req])
  | .err e => (.error ("Erro ao comunicar com a Z-API: " ++ e.message), [req])

/-- Method `ZapiService.sendMessage` (zapiService.ts lines 29-36): posts
`{to, message}` to the `send-message` endpoint via `sendRequest`. -/
def sendMessage (net : HttpRequest → AxiosResult) (to_ message : String) :
    Except String JsonValue × List HttpRequest :=
  sendRequest net apiUrl token "send-message" "POST"
    [("to", to_), ("message", message)]

end ZapiService

/-- Model of the JS `String.prototype.trim`: drop whitespace characters from
both ends of the string.  (Defined on the character list so that it is
kernel-reducible on concrete inputs.) -/
def jsTrim (s : String) : String :=
  String.mk (((s.data.dropWhile Char.isWhitespace).reverse.dropWhile
    Char.isWhitespace).reverse)

namespace MessageService

/-- Method `MessageService.formatMessage` (messageService.ts lines 20-23):
`message.trim()`. -/
def formatMessage (message : String) : String :=
  jsTrim message

/-- Method `MessageService.sendMessage` (messageService.ts lines 11-18): trims the
message via `formatMessage` and delegates the payload
`{to, message: formattedMessage}` to the Z-API service, returning its
response unchanged.  (The source invokes `zapiService.sendRequest` with the
payload as single argument, which only reads consistently as the gateway
send of that payload that `ZapiService.sendMessage` performs; the embedding
resolves the delegation that way.)  No validation of any kind is performed
before delegating. -/
def sendMessage (net : HttpRequest → AxiosResult) (to_ message : String) :
    Except String JsonValue × List HttpRequest :=
  ZapiService.sendMessage net to_ (formatMessage message)

/-- Method `MessageService.receiveMessage` (messageService.ts lines 25-29): logs
the incoming payload and does nothing else.  Modelled as the list of lines
written to the console; the function is total, so the service-level handler
itself has no failure path. -/
def receiveMessage (data : JsonValue) : List String :=
  ["Received message: " ++ data.stringify]

end MessageService

/-! Function `enviarMensagem` — the env-configured Z-API sender (unnamed module). -/

/-- Model of `process.env`, as an association list. -/
def Env := List (String × String)

/-- Lookup of one environment variable. -/
def Env.get (env : Env) (k : String) : Option String :=
  (List.find? (fun p => p.1 = k) env).map Prod.snd

/-- JS `v || d` on strings: `undefined` and the empty string both fall back
to the default. -/
def orDefault (v : Option String) (d : String) : String :=
  match v with
  | some s => if s = "" then d else s
  | none => d

/-- Constant `INSTANCE_ID`: env var `ZAPI_INSTANCE_ID` with the hard-coded fallback `3E68FAC9BEFB716A85B5B24F68547F08` (line 3). -/
def INSTANCE_ID (env : Env) : String :=
  orDefault (env.get "ZAPI_INSTANCE_ID") "3E68FAC9BEFB716A85B5B24F68547F08"

/-- Constant `TOKEN`: env var `ZAPI_TOKEN` with the hard-coded fallback `6ED2B6C9FBB305ACA45EF6ED` (line 4). -/
def TOKEN (env : Env) : String :=
  orDefault (env.get "ZAPI_TOKEN") "6ED2B6C9FBB305ACA45EF6ED"

/-- Constant `BASE_URL`: env var `ZAPI_BASE_URL` with the hard-coded fallback `https://api.z-api.io` (line 5). -/
def BASE_URL (env : Env) : String :=
  orDefault (env.get "ZAPI_BASE_URL") "https://api.z-api.io"

/-- Function `buildUrl` (lines 7-9). -/
def buildUrl (env : Env) : String :=
  BASE_URL env ++ "/instances/" ++ INSTANCE_ID env ++ "/token/" ++
    TOKEN env ++ "/send-message"

/-- The error normalization in the catch block of `enviarMensagem`
(line 28): `err?.response?.data || err?.message || err`.  A truthy response
body wins, otherwise the transport message.  (The final `|| err` fallback
only fires when `err.message` is itself the empty string, in which case the
`Error` object would be stringified; the embedding keeps the message, which
coincides for every axios error, whose `message` is non-empty.) -/
def normalizeAxiosError (e : AxiosError) : JsonValue :=
  match e.responseData with
  | some d => if d.truthy then d else .str e.message
  | none => .str e.message

/-- Model of line 29: the ternary on `typeof messageErr` at the throw site:
a string is rethrown as-is, anything else goes through `JSON.stringify` — a string is thrown as-is, anything else is
stringified. -/
def thrownText : JsonValue → String
  | .str s => s
  | .obj fields => JsonValue.stringify (.obj fields)

/-- Function `enviarMensagem` (unnamed module, lines 16-31): posts `{phone, message}`
to `buildUrl(env)` with a 10 s timeout and no extra headers; returns
`resp.data` on success and on failure throws
`Error(thrownText (normalizeAxiosError err))` — modelled as `Except.error`.
The second component is the list of requests issued. -/
def enviarMensagem (net : HttpRequest → AxiosResult) (env : Env)
    (phone message : String) :
    Except String JsonValue × List HttpRequest :=
  let req : HttpRequest :=
    { method := "POST"
      url := buildUrl env
      headers := []
      body := [("phone", phone), ("message", message)] }
  match net req with
  | .ok d => (.ok d, [req])
  | .err e => (.error (thrownText (normalizeAxiosError e)), [req])

/-! The webhook controller `MessagesController.receiveMessage`. -/

/-- Outcome of the service-level processing step the controller awaits
(`messageService.processReceivedMessage`): either it completed, or it threw
an error carrying a message. -/
inductive ProcessOutcome where
  | ok
  | error (msg : String)
deriving Repr, DecidableEq

/-- The HTTP response the controller sends back to the webhook caller. -/
structure WebhookHttpResult where
  status : Nat
  body : String
deriving Repr, DecidableEq

namespace MessagesController

/-- Method `MessagesController.receiveMessage` (appointmentsController.ts lines
74-82): awaits the processing step; on completion responds
with status 200 and body `Message received`, and in the catch block responds
`500 {error: error.message}` — the internal error is surfaced to the
webhook caller as an HTTP failure. -/
def receiveMessage : ProcessOutcome → WebhookHttpResult
  | .ok => { status := 200, body := "Message received" }
  | .error msg =>
      { status := 500
        body := JsonValue.stringify (.obj [("error", msg)]) }

end MessagesController

/-! Shared fixtures and helper lemmas used by several verification
theorems: concrete network oracles, sample appointments, and the
first-match behavior of the store operations. -/

deriving instance DecidableEq for Except

/-- A network on which every request succeeds with body `"sent"`. -/
def netOk : HttpRequest → AxiosResult := fun _ => .ok (.str "sent")

/-- A network on which every request fails as an HTTP 401 whose response
body is the JSON object with the single field `error = invalid token`. -/
def net401 : HttpRequest → AxiosResult := fun _ =>
  .err { responseData := some (.obj [("error", "invalid token")])
         message := "Request failed with status code 401" }

/-- A network on which every request fails with a transport timeout (no
HTTP response at all). -/
def netTimeout : HttpRequest → AxiosResult := fun _ =>
  .err { responseData := none, message := "timeout of 10000ms exceeded" }

/-- Sample appointment with id `1`. -/
def appt1 : Appointment := ⟨"1", "A", "2024-01-01", "10:00", none⟩

/-- A second appointment that reuses the id `1` of `appt1`. -/
def appt2 : Appointment := ⟨"1", "B", "2024-02-02", "11:00", none⟩

/-- Sample appointment with the fresh id `2`. -/
def appt3 : Appointment := ⟨"2", "C", "2024-03-03", "09:00", some "first visit"⟩

/-- Sample appointment with the fresh id `3`. -/
def appt4 : Appointment := ⟨"3", "D", "2024-04-04", "14:00", none⟩

/-- A patch that supplies only the `time` field. -/
def timePatch : AppointmentPatch :=
  { AppointmentPatch.empty with time := some "11:00" }

namespace AppointmentService

theorem update_not_found (s : List Appointment) (i : String)
    (p : AppointmentPatch) (h : ∀ b ∈ s, b.id ≠ i) :
    updateAppointment s i p = (s, none) := by
  induction s with
  | nil => rfl
  | cons a rest ih =>
      have ha : a.id ≠ i := h a (List.mem_cons_self a rest)
      simp only [updateAppointment, if_neg ha]
      rw [ih (fun b hb => h b (List.mem_cons_of_mem a hb))]

theorem cancel_not_found (s : List Appointment) (i : String)
    (h : ∀ b ∈ s, b.id ≠ i) :
    cancelAppointment s i = (s, false) := by
  induction s with
  | nil => rfl
  | cons a rest ih =>
      have ha : a.id ≠ i := h a (List.mem_cons_self a rest)
      simp only [cancelAppointment, if_neg ha]
      rw [ih (fun b hb => h b (List.mem_cons_of_mem a hb))]

theorem cancel_first (pre post : List Appointment) (a : Appointment)
    (hpre : ∀ b ∈ pre, b.id ≠ a.id) :
    cancelAppointment (pre ++ a :: post) a.id = (pre ++ post, true) := by
  induction pre with
  | nil => simp [cancelAppointment]
  | cons b rest ih =>
      have hb : b.id ≠ a.id := hpre b (List.mem_cons_self b rest)
      have ih2 := ih (fun c hc => hpre c (List.mem_cons_of_mem b hc))
      simp only [List.cons_append, cancelAppointment, if_neg hb,
        List.append_eq, ih2]

theorem update_found (pre post : List Appointment) (a : Appointment)
    (p : AppointmentPatch) (hpre : ∀ b ∈ pre, b.id ≠ a.id) :
    updateAppointment (pre ++ a :: post) a.id p =
      (pre ++ mergePatch a p :: post, some (mergePatch a p)) := by
  induction pre with
  | nil => simp [updateAppointment]
  | cons b rest ih =>
      have hb : b.id ≠ a.id := hpre b (List.mem_cons_self b rest)
      have ih2 := ih (fun c hc => hpre c (List.mem_cons_of_mem b hc))
      simp only [List.cons_append, updateAppointment, if_neg hb,
        List.append_eq, ih2]

end AppointmentService

theorem erro_prefix_ne_invalid_input (m : String) :
    "Erro ao comunicar com a Z-API: " ++ m ≠ "invalid input" := by
  intro h
  have hl := congrArg String.length h
  rw [String.length_append] at hl
  have h1 : ("Erro ao comunicar com a Z-API: " : String).length = 31 := rfl
  have h2 : ("invalid input" : String).length = 13 := rfl
  omega

/-- The send path of `MessageService.sendMessage` issues exactly one HTTP
request, whatever the network answers: a POST of the JSON body
`to = recipient as given, message = trimmed message` to the hard-coded
base URL with the hard-coded bearer token. -/
theorem sendMessage_requests (net : HttpRequest → AxiosResult)
    (to_ message : String) :
    (MessageService.sendMessage net to_ message).2 =
      [{ method := "POST"
         url := ZapiService.apiUrl ++ "send-message"
         headers := [("Authorization", "Bearer " ++ ZapiService.token),
                     ("Content-Type", "application/json")]
         body := [("to", to_), ("message", jsTrim message)] }] := by
  rcases hr :
      net { method := "POST"
            url := ZapiService.apiUrl ++ "send-message"
            headers := [("Authorization", "Bearer " ++ ZapiService.token),
                        ("Content-Type", "application/json")]
            body := [("to", to_), ("message", jsTrim message)] } with d | e <;>
    simp [MessageService.sendMessage, ZapiService.sendMessage,
      ZapiService.sendRequest, MessageService.formatMessage, hr]

/-! Machinery for the store-wide id-uniqueness question: sequences of store
operations and the states they reach. -/

/-- The ids of the stored records, in store order. -/
def idsOf (s : List Appointment) : List String := s.map Appointment.id

/-- No two stored records share an id. -/
def uniqueIds (s : List Appointment) : Prop := (idsOf s).Nodup

instance uniqueIds.decidable (s : List Appointment) : Decidable (uniqueIds s) :=
  inferInstanceAs (Decidable (idsOf s).Nodup)

/-- One mutating operation of `AppointmentService`. -/
inductive StoreOp where
  | schedule (a : Appointment)
  | update (i : String) (p : AppointmentPatch)
  | cancel (i : String)
deriving Repr, DecidableEq

/-- The state transition of one operation (the first component of the
corresponding service method). -/
def applyOp (s : List Appointment) : StoreOp → List Appointment
  | .schedule a => (AppointmentService.scheduleAppointment s a).1
  | .update i p => (AppointmentService.updateAppointment s i p).1
  | .cancel i => (AppointmentService.cancelAppointment s i).1

/-- The caller discipline under which uniqueness of ids is preserved:
scheduled records carry an id not currently stored, and update patches do
not supply an `id` field.  (The service itself enforces none of this.) -/
def goodOp (s : List Appointment) : StoreOp → Bool
  | .schedule a => s.all (fun b => b.id != a.id)
  | .update _ p => p.id.isNone
  | .cancel _ => true

/-- Whether a whole operation sequence respects `goodOp` at every
intermediate state. -/
def goodRun : List Appointment → List StoreOp → Bool
  | _, [] => true
  | s, op :: rest => goodOp s op && goodRun (applyOp s op) rest

/-- The state after running a sequence of operations. -/
def runOps (s : List Appointment) : List StoreOp → List Appointment
  | [] => s
  | op :: rest => runOps (applyOp s op) rest

theorem update_ids (s : List Appointment) (i : String) (p : AppointmentPatch)
    (hid : p.id = none) :
    idsOf (AppointmentService.updateAppointment s i p).1 = idsOf s := by
  induction s with
  | nil => rfl
  | cons a rest ih =>
      by_cases ha : a.id = i
      · simp [AppointmentService.updateAppointment, if_pos ha, idsOf,
          mergePatch, hid]
      · simp only [AppointmentService.updateAppointment, if_neg ha, idsOf,
          List.map_cons]
        rw [show (AppointmentService.updateAppointment rest i p).1.map
            Appointment.id =
            idsOf (AppointmentService.updateAppointment rest i p).1 from rfl,
          ih]
        rfl

theorem cancel_sublist (s : List Appointment) (i : String) :
    (AppointmentService.cancelAppointment s i).1.Sublist s := by
  induction s with
  | nil => simp [AppointmentService.cancelAppointment]
  | cons a rest ih =>
      by_cases ha : a.id = i
      · simp only [AppointmentService.cancelAppointment, if_pos ha]
        exact List.sublist_cons_self a rest
      · simp only [AppointmentService.cancelAppointment, if_neg ha]
        exact List.Sublist.cons₂ a ih

theorem goodRun_unique (ops : List StoreOp) :
    ∀ s : List Appointment, uniqueIds s → goodRun s ops = true →
      uniqueIds (runOps s ops) := by
  induction ops with
  | nil => intro s hs _; exact hs
  | cons op rest ih =>
      intro s hs hrun
      simp only [goodRun, Bool.and_eq_true] at hrun
      refine ih (applyOp s op) ?_ hrun.2
      cases op with
      | schedule a =>
          have hfresh : a.id ∉ idsOf s := by
            intro hmem
            rcases List.mem_map.mp hmem with ⟨b, hb, hbid⟩
            have := hrun.1
            simp only [goodOp, List.all_eq_true] at this
            exact bne_iff_ne.mp (this b hb) hbid
          simp only [applyOp, AppointmentService.scheduleAppointment]
          simp only [uniqueIds, idsOf, List.map_append, List.map_cons,
            List.map_nil]
          rw [List.nodup_append]
          refine ⟨hs, List.nodup_singleton a.id, ?_⟩
          intro x hx hx2
          simp only [List.mem_singleton] at hx2
          exact hfresh (hx2 ▸ hx)
      | update i p =>
          have hid : p.id = none := by
            have := hrun.1
            simpa [goodOp, Option.isNone_iff_eq_none] using this
          simpa [applyOp, uniqueIds, update_ids s i p hid] using hs
      | cancel i =>
          have hsub := (cancel_sublist s i).map Appointment.id
          exact List.Nodup.sublist hsub hs

/-- Whether a string consists of digits only. -/
def digitsOnly (s : String) : Bool := s.data.all Char.isDigit

theorem orDefault_ne_empty (v : Option String) (d : String) (hd : d ≠ "") :
    orDefault v d ≠ "" := by
  cases v with
  | none => exact hd
  | some s => by_cases hs : s = "" <;> simp [orDefault, hs, hd]

/-! Claims. -/

/-- C1, counterexample: the send operation does throw past the client
boundary.  On a transport failure (`netTimeout`), `ZapiService.sendRequest`
evaluates to `Except.error ...` — the model of the `throw new Error(...)`
in its catch block — and so does `enviarMensagem`; neither returns a
`success:false` value. -/
theorem C1_counterexample :
    (ZapiService.sendRequest netTimeout ZapiService.apiUrl ZapiService.token
        "send-message" "POST" [("to", "5511999998888"), ("message", "oi")]).1 =
      Except.error "Erro ao comunicar com a Z-API: timeout of 10000ms exceeded" ∧
    (enviarMensagem netTimeout [] "5511999998888" "oi").1 =
      Except.error "timeout of 10000ms exceeded" :=
  ⟨rfl, rfl⟩

/-- C1, amended: on every non-2xx response or network failure, the gateway
client throws: `ZapiService.sendRequest` throws an `Error` whose message
wraps the axios error message with the fixed prefix, and `enviarMensagem`
throws an `Error` carrying the normalized error text; no `success:false`
result value is produced on any failure path. -/
theorem C1_failure_is_thrown (e : AxiosError)
    (apiUrl token endpoint method : String) (data : List (String × String))
    (env : Env) (phone msg : String) :
    (ZapiService.sendRequest (fun _ => .err e)
        apiUrl token endpoint method data).1 =
      Except.error ("Erro ao comunicar com a Z-API: " ++ e.message) ∧
    (enviarMensagem (fun _ => .err e) env phone msg).1 =
      Except.error (thrownText (normalizeAxiosError e)) :=
  ⟨rfl, rfl⟩

/-- C2, counterexample: for the whitespace-only message `"   "`,
`MessageService.sendMessage` issues one network call (not zero) and returns
the gateway response unchanged — there is no `success:false` /
`invalid input` result and no validation. -/
theorem C2_counterexample :
    (MessageService.sendMessage netOk "5511999998888" "   ").2.length = 1 ∧
    (MessageService.sendMessage netOk "5511999998888" "   ").1 =
      Except.ok (.str "sent") :=
  ⟨rfl, rfl⟩

/-- C2, amended: `MessageService.sendMessage` performs no validation: for
every empty or whitespace-only message it trims the message to the empty
string and still issues exactly one network call carrying that empty
message; its result is the gateway pass-through (or the thrown gateway
error), never an `invalid input` error. -/
theorem C2_sendMessage_no_validation (net : HttpRequest → AxiosResult)
    (to_ message : String) (h : jsTrim message = "") :
    (MessageService.sendMessage net to_ message).2.length = 1 ∧
    (MessageService.sendMessage net to_ message).2.map HttpRequest.body =
      [[("to", to_), ("message", "")]] ∧
    (MessageService.sendMessage net to_ message).1 ≠
      Except.error "invalid input" := by
  have hr := sendMessage_requests net to_ message
  refine ⟨by rw [hr]; rfl, by rw [hr]; simp [h], ?_⟩
  rcases hr2 :
      net { method := "POST"
            url := ZapiService.apiUrl ++ "send-message"
            headers := [("Authorization", "Bearer " ++ ZapiService.token),
                        ("Content-Type", "application/json")]
            body := [("to", to_), ("message", jsTrim message)] } with d | e
  · simp [MessageService.sendMessage, ZapiService.sendMessage,
      ZapiService.sendRequest, MessageService.formatMessage, hr2]
  · simp only [MessageService.sendMessage, ZapiService.sendMessage,
      ZapiService.sendRequest, MessageService.formatMessage, hr2, ne_eq,
      Except.error.injEq]
    exact erro_prefix_ne_invalid_input e.message

/-- C2, witness: the amended statement at the concrete whitespace-only
message `"   "` on the always-succeeding network. -/
theorem C2_sendMessage_no_validation_witness :
    jsTrim "   " = "" ∧
    ((MessageService.sendMessage netOk "5511999998888" "   ").2.length = 1 ∧
     (MessageService.sendMessage netOk "5511999998888" "   ").2.map
        HttpRequest.body = [[("to", "5511999998888"), ("message", "")]] ∧
     (MessageService.sendMessage netOk "5511999998888" "   ").1 ≠
       Except.error "invalid input") :=
  ⟨by decide, C2_sendMessage_no_validation netOk "5511999998888" "   " (by decide)⟩

/-- C3, counterexample: for the recipient `(11) 99999-8888`, the single
issued request carries that recipient verbatim in the body — it is not
normalized to digits-only form. -/
theorem C3_counterexample :
    (MessageService.sendMessage netOk "(11) 99999-8888" "oi").2.map
        HttpRequest.body = [[("to", "(11) 99999-8888"), ("message", "oi")]] ∧
    digitsOnly "(11) 99999-8888" = false :=
  ⟨rfl, by decide⟩

/-- C3, amended: for every `(to, message)` pair, `MessageService.sendMessage`
issues exactly one outbound HTTP call, a POST whose JSON body contains the
message trimmed of surrounding whitespace and the recipient exactly as
supplied (no digit normalization is applied). -/
theorem C3_one_call_trimmed_message (net : HttpRequest → AxiosResult)
    (to_ message : String) :
    (MessageService.sendMessage net to_ message).2 =
      [{ method := "POST"
         url := ZapiService.apiUrl ++ "send-message"
         headers := [("Authorization", "Bearer " ++ ZapiService.token),
                     ("Content-Type", "application/json")]
         body := [("to", to_), ("message", jsTrim message)] }] :=
  sendMessage_requests net to_ message

/-- C4, counterexample: with an entirely absent configuration (`env = []`)
no configuration error is raised and no fail-fast happens: the send still
issues one network call, whose URL embeds the hard-coded fallback instance
id and token, and the `ZapiService` credentials are hard-coded constants,
not configuration values. -/
theorem C4_counterexample :
    ZapiService.token = "9D1448816F95F132200BAE50" ∧
    ZapiService.apiUrl = "https://api.z-api.io/" ∧
    TOKEN [] = "6ED2B6C9FBB305ACA45EF6ED" ∧
    buildUrl [] =
      "https://api.z-api.io/instances/3E68FAC9BEFB716A85B5B24F68547F08/token/6ED2B6C9FBB305ACA45EF6ED/send-message" ∧
    (enviarMensagem netOk [] "5511999998888" "oi").2.length = 1 :=
  ⟨rfl, rfl, rfl, rfl, rfl⟩

/-- C4, amended: the resolved `baseUrl` and `token` are indeed non-empty
before every send attempt, but only because they are hard-coded constants
(`ZapiService`) or environment values with non-empty hard-coded fallbacks
(`enviarMensagem`); a missing configuration value never produces a
`ConfigError` — the send proceeds against the network using the fallback
credentials. -/
theorem C4_nonempty_by_fallback (env : Env) :
    TOKEN env ≠ "" ∧ INSTANCE_ID env ≠ "" ∧ BASE_URL env ≠ "" ∧
    ZapiService.token ≠ "" ∧ ZapiService.apiUrl ≠ "" ∧
    (enviarMensagem netOk env "5511999998888" "oi").2.length = 1 :=
  ⟨orDefault_ne_empty _ _ (by decide), orDefault_ne_empty _ _ (by decide),
   orDefault_ne_empty _ _ (by decide), by decide, by decide, rfl⟩

/-- C5, counterexample: on an HTTP 401 whose body is the JSON object
`error = invalid token`, `enviarMensagem` throws (modelled as
`Except.error`) with the JSON-stringified whole body as message — it does
not return `success:false` with `errorMessage = invalid token`. -/
theorem C5_counterexample :
    (enviarMensagem net401 [] "5511999998888" "oi").1 =
      Except.error "\x7b\"error\":\"invalid token\"\x7d" ∧
    ("\x7b\"error\":\"invalid token\"\x7d" : String) ≠ "invalid token" :=
  ⟨rfl, by decide⟩

/-- C5, amended: on every gateway failure the error text is chosen by this
precedence: the response body when present and truthy (used verbatim when a
string, JSON-stringified when an object), else the transport error message;
the text is thrown as an `Error` (modelled `Except.error`), not returned as
a `success:false` value.  In particular the 401 scenario yields the
stringified object, not the extracted field. -/
theorem C5_error_precedence (env : Env) (phone msg transport : String)
    (body : JsonValue) :
    (enviarMensagem (fun _ => .err ⟨some body, transport⟩) env phone msg).1 =
      Except.error (if body.truthy then thrownText body else transport) ∧
    (enviarMensagem (fun _ => .err ⟨none, transport⟩) env phone msg).1 =
      Except.error transport ∧
    thrownText (.str "invalid token") = "invalid token" ∧
    thrownText (.obj [("error", "invalid token")]) =
      "\x7b\"error\":\"invalid token\"\x7d" := by
  refine ⟨?_, rfl, rfl, by decide⟩
  by_cases hb : body.truthy <;>
    simp [enviarMensagem, normalizeAxiosError, thrownText, hb]

/-- C6, counterexample: when the awaited processing step throws (outcome
`.error "boom"`), the webhook controller responds HTTP 500 with the error
in the body — the internal error is propagated to the caller as a failure,
not swallowed behind a 2xx acknowledgment. -/
theorem C6_counterexample :
    MessagesController.receiveMessage (.error "boom") =
      { status := 500, body := "\x7b\"error\":\"boom\"\x7d" } ∧
    (MessagesController.receiveMessage (.error "boom")).status ≠ 200 :=
  ⟨by decide, by decide⟩

/-- C6, amended: the service-level handler only logs the payload (it is a
total function with no failure path of its own), but the webhook controller
does propagate a processing error to the caller: it acknowledges with
HTTP 200 exactly when processing succeeded and responds HTTP 500 whenever
the awaited processing step threw. -/
theorem C6_webhook_error_propagates (o : ProcessOutcome) (m : String)
    (d : JsonValue) :
    ((MessagesController.receiveMessage o).status = 200 ↔ o = .ok) ∧
    (MessagesController.receiveMessage (.error m)).status = 500 ∧
    MessageService.receiveMessage d = ["Received message: " ++ d.stringify] := by
  refine ⟨?_, rfl, rfl⟩
  cases o <;> simp [MessagesController.receiveMessage]

/-- C7: `updateAppointment` has merge semantics.  Updating the record whose
id matches (the first such record) replaces it by the spread-merge of the
old record with the patch, in place; every field the patch does not supply
keeps its old value, and every supplied field overwrites.  At the concrete
scenario of the claim, updating `clientName A, date 2024-01-01, time 10:00`
with a patch supplying only `time 11:00` yields
`clientName A, date 2024-01-01, time 11:00` (see the witness). -/
theorem C7_update_merge (pre post : List Appointment) (a : Appointment)
    (p : AppointmentPatch) (hpre : ∀ b ∈ pre, b.id ≠ a.id) :
    AppointmentService.updateAppointment (pre ++ a :: post) a.id p =
      (pre ++ mergePatch a p :: post, some (mergePatch a p)) ∧
    (p.id = none → (mergePatch a p).id = a.id) ∧
    (p.clientName = none → (mergePatch a p).clientName = a.clientName) ∧
    (p.date = none → (mergePatch a p).date = a.date) ∧
    (p.time = none → (mergePatch a p).time = a.time) ∧
    (p.notes = none → (mergePatch a p).notes = a.notes) ∧
    (∀ v, p.time = some v → (mergePatch a p).time = v) := by
  refine ⟨AppointmentService.update_found pre post a p hpre,
    fun h => by simp [mergePatch, h],
    fun h => by simp [mergePatch, h],
    fun h => by simp [mergePatch, h],
    fun h => by simp [mergePatch, h],
    fun h => by simp [mergePatch, h],
    fun v hv => by simp [mergePatch, hv]⟩

/-- C7, witness: the scenario of the claim, through `C7_update_merge` at
the singleton store holding `appt1`. -/
theorem C7_update_merge_witness :
    (∀ b ∈ ([] : List Appointment), b.id ≠ appt1.id) ∧
    AppointmentService.updateAppointment [appt1] "1" timePatch =
      ([⟨"1", "A", "2024-01-01", "11:00", none⟩],
       some ⟨"1", "A", "2024-01-01", "11:00", none⟩) :=
  ⟨by simp, by
    have h := (C7_update_merge [] [] appt1 timePatch (by simp)).1
    simpa [appt1, timePatch, AppointmentPatch.empty, mergePatch] using h⟩

/-- C8, counterexample: ids are caller-supplied and not deduplicated, so
the round-trip fails in a state already holding the same id: scheduling
`appt2` (same id `1` as the stored `appt1`) and then canceling id `1`
removes the first match (`appt1`) and the listing still contains the
just-scheduled record. -/
theorem C8_counterexample :
    appt1.id = appt2.id ∧
    appt2 ∈ AppointmentService.getAppointments
      (AppointmentService.cancelAppointment
        (AppointmentService.scheduleAppointment [appt1] appt2).1 appt2.id).1 :=
  ⟨rfl, by decide⟩

/-- C8, amended: provided the scheduled appointment carries an id not
already present in the store (the store itself assigns nothing), scheduling
then listing includes the new record, its id occurs exactly once, and
canceling that id restores exactly the prior store, which does not contain
the record. -/
theorem C8_roundtrip_fresh_id (s : List Appointment) (a : Appointment)
    (hfresh : ∀ b ∈ s, b.id ≠ a.id) :
    a ∈ AppointmentService.getAppointments
        (AppointmentService.scheduleAppointment s a).1 ∧
    (AppointmentService.scheduleAppointment s a).1.countP
        (fun b => b.id == a.id) = 1 ∧
    AppointmentService.cancelAppointment
        (AppointmentService.scheduleAppointment s a).1 a.id = (s, true) ∧
    a ∉ AppointmentService.getAppointments s := by
  refine ⟨?_, ?_, ?_, ?_⟩
  · simp [AppointmentService.scheduleAppointment,
      AppointmentService.getAppointments]
  · have h0 : s.countP (fun b => b.id == a.id) = 0 := by
      rw [List.countP_eq_zero]
      intro b hb
      simpa using hfresh b hb
    simp [AppointmentService.scheduleAppointment, List.countP_append, h0,
      List.countP_cons]
  · have h := AppointmentService.cancel_first s [] a hfresh
    simpa [AppointmentService.scheduleAppointment] using h
  · intro ha
    exact hfresh a ha rfl

/-- C8, witness: the amended round-trip at the concrete store `[appt1]`
with the fresh-id appointment `appt3`. -/
theorem C8_roundtrip_fresh_id_witness :
    (∀ b ∈ [appt1], b.id ≠ appt3.id) ∧
    (appt3 ∈ AppointmentService.getAppointments
        (AppointmentService.scheduleAppointment [appt1] appt3).1 ∧
     (AppointmentService.scheduleAppointment [appt1] appt3).1.countP
        (fun b => b.id == appt3.id) = 1 ∧
     AppointmentService.cancelAppointment
        (AppointmentService.scheduleAppointment [appt1] appt3).1 appt3.id =
       ([appt1], true) ∧
     appt3 ∉ AppointmentService.getAppointments [appt1]) :=
  ⟨by decide, C8_roundtrip_fresh_id [appt1] appt3 (by decide)⟩

/-- C9, counterexample: the store does not enforce id uniqueness — the
state reached from the empty store by scheduling `appt1` and then `appt2`
(same id `1`) holds two records sharing an id. -/
theorem C9_counterexample :
    ¬ uniqueIds (runOps [] [StoreOp.schedule appt1, StoreOp.schedule appt2]) := by
  decide

/-- C9, amended: id uniqueness is the callers responsibility, not enforced
by the store; it does hold in every state reachable from the empty store by
operation sequences in which each scheduled record carries an id not
currently stored and no update patch supplies an `id` field (cancel is
unrestricted). -/
theorem C9_unique_ids_under_discipline (ops : List StoreOp)
    (h : goodRun [] ops = true) :
    uniqueIds (runOps [] ops) :=
  goodRun_unique ops [] (by simp [uniqueIds, idsOf]) h

/-- C9, witness: a disciplined four-operation run (two schedules with fresh
ids, an id-free update, a cancel) ends in a duplicate-free state. -/
theorem C9_unique_ids_under_discipline_witness :
    goodRun [] [StoreOp.schedule appt1, StoreOp.schedule appt3,
      StoreOp.update "1" timePatch, StoreOp.cancel "2"] = true ∧
    uniqueIds (runOps [] [StoreOp.schedule appt1, StoreOp.schedule appt3,
      StoreOp.update "1" timePatch, StoreOp.cancel "2"]) :=
  ⟨by decide, C9_unique_ids_under_discipline _ (by decide)⟩

/-- C10: update and cancel on an absent id report not-found (`none` /
`false`) and leave the store untouched, and a successful cancel removes
exactly the first record matching the id, preserving all other records and
their relative order. -/
theorem C10_not_found_and_first_match_frame (s pre post : List Appointment)
    (a : Appointment) (i : String) (p : AppointmentPatch)
    (habs : ∀ b ∈ s, b.id ≠ i) (hpre : ∀ b ∈ pre, b.id ≠ a.id) :
    AppointmentService.updateAppointment s i p = (s, none) ∧
    AppointmentService.cancelAppointment s i = (s, false) ∧
    AppointmentService.cancelAppointment (pre ++ a :: post) a.id =
      (pre ++ post, true) :=
  ⟨AppointmentService.update_not_found s i p habs,
   AppointmentService.cancel_not_found s i habs,
   AppointmentService.cancel_first pre post a hpre⟩

/-- C10, witness: the frame conditions at a concrete two-record store with
the absent id `9`, and a first-match cancel of `appt3` sitting between
`appt1` and `appt4`. -/
theorem C10_not_found_and_first_match_frame_witness :
    (∀ b ∈ [appt1, appt3], b.id ≠ "9") ∧
    (∀ b ∈ [appt1], b.id ≠ appt3.id) ∧
    (AppointmentService.updateAppointment [appt1, appt3] "9" timePatch =
       ([appt1, appt3], none) ∧
     AppointmentService.cancelAppointment [appt1, appt3] "9" =
       ([appt1, appt3], false) ∧
     AppointmentService.cancelAppointment ([appt1] ++ appt3 :: [appt4])
        appt3.id = ([appt1] ++ [appt4], true)) :=
  ⟨by decide, by decide,
   C10_not_found_and_first_match_frame [appt1, appt3] [appt1] [appt4] appt3
     "9" timePatch (by decide) (by decide)⟩
